/-
Verification development for the go-pkgz/requester repository.

The file shallowly embeds the parts of the repository that the checked
claims are about:

* the retry middleware (`RetryMiddleware` of package `middleware`:
  `RoundTrip`, `bufferRequestBody`, `calcDelay`, `shouldRetry`),
* the caching middleware of package `cache` (`Middleware.Middleware`,
  `extractCacheKey`, `headerAllowed`, `methodCacheable`),
* the middleware-chain composition of `Requester.Do` / `Requester.Client`
  (requester.go),
* a spec-modelled bounded-concurrency gate (`MaxConcurrent`) and a
  spec-modelled status-filtering cache store decision, whose Go sources are
  not part of the source tree (only their tests and README are).

Go `time.Duration` values are `Int` (int64 nanoseconds) with explicit
two's-complement wrap where overflow is possible; byte slices are
`List Nat`; `nil`-able values are `Option`; functions that can fail return
`Except`.
-/
import Mathlib

namespace RetryM

/-- Backoff strategy selector, mirroring `BackoffType` with constants
`BackoffConstant`, `BackoffLinear`, `BackoffExponential`. -/
inductive BackoffType where
  | constant
  | linear
  | exponential
  deriving DecidableEq

/-- Configuration of `RetryMiddleware` (the struct fields set by `Retry`
and its options).  `attempts` is a Go `int`; the delays are
`time.Duration`, i.e. int64 nanoseconds; `jitterFactor` is the float64
jitter fraction, modelled as a rational. -/
structure RetryConfig where
  attempts : Int
  initialDelay : Int
  maxDelay : Int
  backoff : BackoffType
  jitterFactor : ℚ
  retryCodes : List Int
  excludeCodes : List Int
  bufferBodies : Bool
  maxBufferSize : Int

/-- Two's-complement wrap of an integer into the int64 range, used where
Go `time.Duration` multiplication can overflow. -/
def wrap64 (x : Int) : Int := (x + 2 ^ 63) % 2 ^ 64 - 2 ^ 63

/-- Truncation of a rational toward zero, mirroring Go's float64 → int64
conversion in the jitter computation. -/
def truncQ (q : ℚ) : Int := Int.tdiv q.num q.den

/-- Translation of `RetryMiddleware.calcDelay`.  `attempt` is the loop
index (`calcDelay` is only called with `attempt ≥ 1`; for 0 it returns 0).
`rnd` stands for the `rand.Float64()` sample and is only consulted when
the jitter factor is positive.  The exponential branch goes through
`math.Pow(2, attempt-1)` and a float64 → Duration conversion in Go; the
integer translation `initialDelay * 2^(attempt-1)` matches it exactly
whenever `2^(attempt-1)` fits in int64 (the conversion is
implementation-defined beyond that), which the theorems below assume. -/
def calcDelay (cfg : RetryConfig) (attempt : Nat) (rnd : ℚ) : Int :=
  if attempt = 0 then 0
  else
    let delay : Int :=
      match cfg.backoff with
      | .constant => cfg.initialDelay
      | .linear => wrap64 (cfg.initialDelay * (attempt : Int))
      | .exponential => wrap64 (cfg.initialDelay * 2 ^ (attempt - 1))
    let clamped : Int := if cfg.maxDelay < delay then cfg.maxDelay else delay
    if 0 < cfg.jitterFactor then
      truncQ ((clamped : ℚ) + rnd * ((clamped : ℚ) * cfg.jitterFactor)
        - ((clamped : ℚ) * cfg.jitterFactor) / 2)
    else clamped

/-- Response as far as the retry middleware inspects it: only the status
code matters to `shouldRetry`. -/
structure Response where
  statusCode : Int
  deriving DecidableEq

/-- Translation of `RetryMiddleware.shouldRetry`: an explicit allow-list
wins, then an explicit deny-list, else retry on 5xx. -/
def shouldRetry (cfg : RetryConfig) (resp : Response) : Bool :=
  if cfg.retryCodes.isEmpty = false then cfg.retryCodes.contains resp.statusCode
  else if cfg.excludeCodes.isEmpty = false then !(cfg.excludeCodes.contains resp.statusCode)
  else decide ((500 : Int) ≤ resp.statusCode)

/-- The request as far as `RetryMiddleware.RoundTrip` inspects it.
`hasBody` mirrors `req.Body != nil && req.Body != http.NoBody`; `getBody`
mirrors `req.GetBody != nil`; `body` holds the body bytes (meaningful when
`hasBody`); `bodyReadErr` makes the `io.ReadAll` in `bufferRequestBody`
fail. -/
structure RetryRequest where
  hasBody : Bool
  getBody : Bool
  body : List Nat
  bodyReadErr : Bool
  deriving DecidableEq

/-- Errors `RoundTrip` can surface, with the data interpolated into the
corresponding Go `fmt.Errorf` messages. -/
inductive RErr where
  | ctxError
  | ctxCancelledDuringDelay
  | getBodyFailed
  | bodyReadFailed
  | bodyTooLarge (actual : Nat) (limit : Int)
  | transportExhausted (attempts : Nat) (cause : String)
  deriving DecidableEq

/-- The Go error string of an `RErr`, following the `fmt.Errorf` format
strings in the source (the wrapped causes of the context/body-read/GetBody
errors are abstracted to a fixed tail). -/
def RErr.text : RErr → String
  | .ctxError => "retry: context error"
  | .ctxCancelledDuringDelay => "retry: context cancelled during delay"
  | .getBodyFailed => "retry: failed to get new request body"
  | .bodyReadFailed => "retry: failed to read request body"
  | .bodyTooLarge a l =>
      "retry: request body too large (" ++ toString a ++ " bytes exceeds "
        ++ toString l ++ " byte limit) - cannot retry"
  | .transportExhausted n c =>
      "retry: transport error after " ++ toString n ++ " attempts: " ++ c

/-- One reply of the wrapped `http.RoundTripper`: either a transport-level
failure (with the response value Go returns alongside the error, normally
nil) or a response. -/
inductive TransportReply where
  | failure (resp : Option Response) (cause : String)
  | success (resp : Response)
  deriving DecidableEq

/-- Whether a reply is a transport-level failure. -/
def replyFails : TransportReply → Bool
  | .failure _ _ => true
  | .success _ => false

/-- Whether a reply keeps the attempt loop going: transport failures always
do, responses do when `shouldRetry` holds. -/
def replyRetryable (cfg : RetryConfig) : TransportReply → Bool
  | .failure _ _ => true
  | .success r => shouldRetry cfg r

/-- Environment of one `RoundTrip` call: the wrapped round-tripper's reply
for each invocation (indexed by invocation count), whether the request
context is already cancelled when an attempt's iteration starts, whether
cancellation wins the select against the inter-attempt delay, and whether
the request's original `GetBody` fails when called before an attempt. -/
structure RetryEnv where
  next : Nat → TransportReply
  ctxErrAt : Nat → Bool
  cancelDuringDelay : Nat → Bool
  getBodyFails : Nat → Bool

/-- Result of a `RoundTrip` call: the returned response and error pair,
plus the number of invocations of the wrapped round-tripper (what the
tests count). -/
structure RetryOutcome where
  resp : Option Response
  err : Option RErr
  invocations : Nat
  deriving DecidableEq

/-- Result of the pre-loop body handling of `RoundTrip`: the effective
attempt budget, whether a `GetBody` rewind exists for the loop, and
whether that rewind is the request's own (fallible) one rather than the
always-succeeding one installed by `bufferRequestBody`. -/
structure SetupResult where
  attempts : Int
  gb : Bool
  gbFallible : Bool
  deriving DecidableEq

/-- Translation of the pre-loop part of `RetryMiddleware.RoundTrip`
together with `bufferRequestBody`: with a body, no `GetBody` and more than
one configured attempt, either buffer the body (failing fast when more
than `maxBufferSize` bytes can be read) or clamp the budget to one. -/
def effectiveSetup (cfg : RetryConfig) (req : RetryRequest) : Except RErr SetupResult :=
  if req.hasBody = true ∧ req.getBody = false ∧ 1 < cfg.attempts then
    if cfg.bufferBodies then
      if req.bodyReadErr then .error .bodyReadFailed
      else
        let bodyBytes := req.body.take (cfg.maxBufferSize + 1).toNat
        if cfg.maxBufferSize < (bodyBytes.length : Int) then
          .error (.bodyTooLarge bodyBytes.length cfg.maxBufferSize)
        else .ok ⟨cfg.attempts, true, false⟩
    else .ok ⟨1, false, false⟩
  else .ok ⟨cfg.attempts, req.getBody, true⟩

/-- Translation of the attempt loop of `RetryMiddleware.RoundTrip`,
unrolled on the number of remaining iterations (`attempt` index =
`total - remaining`).  Each iteration checks the context, races the delay
against cancellation and refreshes the body for attempts after the first,
then invokes the wrapped round-tripper; transport errors are recorded in
`lastErr` (never cleared afterwards, as in the source), non-retryable
responses return immediately, retryable ones are recorded in `lastResp`.
After exhaustion a non-nil `lastErr` yields the transport-exhausted
error. -/
def retryLoop (cfg : RetryConfig) (env : RetryEnv) (gb gbFallible : Bool) (total : Nat) :
    Nat → Option Response → Option String → Nat → RetryOutcome
  | 0, lastResp, lastErr, invocs =>
    match lastErr with
    | some e => ⟨lastResp, some (.transportExhausted total e), invocs⟩
    | none => ⟨lastResp, none, invocs⟩
  | remaining + 1, lastResp, lastErr, invocs =>
    let attempt := total - (remaining + 1)
    if env.ctxErrAt attempt = true then ⟨none, some .ctxError, invocs⟩
    else if 0 < attempt ∧ env.cancelDuringDelay attempt = true then
      ⟨none, some .ctxCancelledDuringDelay, invocs⟩
    else if 0 < attempt ∧ gb = true ∧ gbFallible = true ∧ env.getBodyFails attempt = true then
      ⟨none, some .getBodyFailed, invocs⟩
    else
      match env.next invocs with
      | .failure respOpt e =>
          retryLoop cfg env gb gbFallible total remaining respOpt (some e) (invocs + 1)
      | .success resp =>
          if shouldRetry cfg resp then
            retryLoop cfg env gb gbFallible total remaining (some resp) lastErr (invocs + 1)
          else ⟨some resp, none, invocs + 1⟩

/-- Translation of `RetryMiddleware.RoundTrip`: body setup, then the
attempt loop over the effective budget. -/
def retryRoundTrip (cfg : RetryConfig) (req : RetryRequest) (env : RetryEnv) : RetryOutcome :=
  match effectiveSetup cfg req with
  | .error e => ⟨none, some e, 0⟩
  | .ok s => retryLoop cfg env s.gb s.gbFallible s.attempts.toNat s.attempts.toNat none none 0

end RetryM

namespace CacheM

/-- Byte-wise lexicographic order on strings (via their character lists),
mirroring the order `sort.Strings` uses on the rendered header entries. -/
def lexLe : List Char → List Char → Bool
  | [], _ => true
  | _ :: _, [] => false
  | x :: xs, y :: ys =>
    if x.toNat < y.toNat then true
    else if y.toNat < x.toNat then false
    else lexLe xs ys

/-- Insertion step of the string sort. -/
def insertStr (x : String) : List String → List String
  | [] => [x]
  | y :: ys => if lexLe x.data y.data then x :: y :: ys else y :: insertStr x ys

/-- Sorting of the rendered header entries, mirroring `sort.Strings`. -/
def sortStrings : List String → List String
  | [] => []
  | x :: xs => insertStr x (sortStrings xs)

/-- ASCII lower-casing of one character, the part of Unicode simple
folding that `strings.EqualFold` needs for the method and header names the
middleware compares. -/
def asciiLowerChar (c : Char) : Char :=
  if 65 ≤ c.toNat ∧ c.toNat ≤ 90 then Char.ofNat (c.toNat + 32) else c

/-- Translation of `strings.EqualFold` restricted to ASCII. -/
def eqFold (a b : String) : Bool :=
  a.data.map asciiLowerChar == b.data.map asciiLowerChar

/-- The request as the cache middleware inspects it.  `body = none` models
`req.Body == nil`; `bodyReadErr` makes the `io.ReadAll` inside
`extractCacheKey`'s body closure fail. -/
structure CacheRequest where
  method : String
  url : String
  header : List (String × List String)
  body : Option (List Nat)
  bodyReadErr : Bool

/-- A response as the cache middleware handles it: status, headers and a
`nil`-able body. -/
structure CacheResponse where
  statusCode : Int
  header : List (String × List String)
  body : Option (List Nat)
  deriving DecidableEq

/-- Configuration of the `cache.Middleware` struct: allowed methods, the
key components switched on by the `KeyWith*` options, and the optional
custom key function. -/
structure CacheCfg where
  allowedMethods : List String
  keyBody : Bool
  headersEnabled : Bool
  hdrInclude : List String
  hdrExclude : List String
  keyFunc : Option (CacheRequest → String)

/-- The `maxBodySize` constant: the 16 KiB cap on the body bytes read for
key derivation. -/
def maxBodySize : Nat := 1024 * 16

/-- Translation of `Middleware.headerAllowed`. -/
def headerAllowed (cfg : CacheCfg) (key : String) : Bool :=
  if cfg.headersEnabled = false then false
  else if cfg.hdrInclude.isEmpty = false then
    cfg.hdrInclude.any (fun h => eqFold key h)
  else if cfg.hdrExclude.isEmpty = false then
    !(cfg.hdrExclude.any (fun h => eqFold key h))
  else true

/-- Translation of `Middleware.methodCacheable`. -/
def methodCacheable (cfg : CacheCfg) (req : CacheRequest) : Bool :=
  cfg.allowedMethods.any (fun m => eqFold m req.method)

/-- Bytes rendered as the Go string the key embeds (`string(reqBody)`). -/
def bytesToString (bs : List Nat) : String :=
  String.mk (bs.map Char.ofNat)

/-- Translation of the `bodyKey` closure inside `extractCacheKey`: read at
most `maxBodySize` bytes, close the original body, and replace it by a
reader over exactly the bytes read.  Returns the key component and the
body the wrapped invoker will see afterwards. -/
def bodyKeyStep (body : Option (List Nat)) : String × Option (List Nat) :=
  match body with
  | none => ("", none)
  | some bs =>
      let reqBody := bs.take maxBodySize
      (bytesToString reqBody, some reqBody)

/-- Translation of `Middleware.extractCacheKey`.  Returns the key together
with the request as it is left for the wrapped invoker (its body may have
been consumed and replaced).  The final non-debug step of the source, the
SHA-256 hex digest of the key, is a pure function of the string returned
here and is left out of the model (no claim depends on the digest).  The
error case is the body-read failure, wrapped as `cache: failed to read
body` in Go. -/
def extractCacheKey (cfg : CacheCfg) (req : CacheRequest) :
    Except String (String × CacheRequest) :=
  if cfg.keyBody = true ∧ cfg.keyFunc.isNone ∧ req.body.isSome ∧ req.bodyReadErr = true then
    .error "cache: failed to read body"
  else
    let bodyStep :=
      if cfg.keyBody = true ∧ cfg.keyFunc.isNone then bodyKeyStep req.body
      else ("", req.body)
    let bkey := bodyStep.1
    let newBody := bodyStep.2
    let hkey :=
      if cfg.headersEnabled = true ∧ cfg.keyFunc.isNone then
        let hh := req.header.filterMap fun kv =>
          if headerAllowed cfg kv.1 then
            some (kv.1 ++ ":" ++ String.intercalate "%%" kv.2)
          else none
        String.intercalate "$$" (sortStrings hh)
      else ""
    let key :=
      match cfg.keyFunc with
      | some f => f req
      | none => req.url ++ "##" ++ req.method ++ "##" ++ hkey ++ "##" ++ bkey
    .ok (key, { req with body := newBody })

/-- Errors produced inside the cache load: either the producer's wrap of a
transport failure (`cache: transport error: %w`) or an error of the
injected cache service itself. -/
inductive CacheErr where
  | transport (cause : String)
  | svcFail (cause : String)
  deriving DecidableEq

/-- Errors `Middleware.Middleware`'s round trip returns: the wrapped key
derivation failure (`cache key: %w`), the wrapped cache load failure
(`cache read for %s: %w`), or a transport error passed through unwrapped
on the bypass path. -/
inductive CacheFinalErr where
  | keyError (cause : String)
  | readError (key : String) (cause : CacheErr)
  | plain (cause : String)
  deriving DecidableEq

/-- Outcome of one call of the cache middleware's round trip.  `panicked`
models a Go runtime panic (the middleware performs an unchecked interface
type assertion). -/
inductive CacheOutcome where
  | ok (resp : CacheResponse)
  | err (e : CacheFinalErr)
  | panicked (msg : String)
  deriving DecidableEq

/-- The injected loading-cache collaborator (`cache.Service.Get`): takes
the key and the producer and returns a value or an error.  The stored
value is the `interface{}` the producer returns: `none` models the nil
interface returned for body-less responses, `some r` models the
`httputil.DumpResponse` bytes of `r` (serialisation and `http.ReadResponse`
form an encode/decode pair; the model identifies the serialised entry with
the response it encodes, which no claim distinguishes). -/
def CacheSvc : Type :=
  String → (Unit → Except CacheErr (Option CacheResponse)) → Except CacheErr (Option CacheResponse)

/-- The producer closure passed to `Service.Get`: invoke the wrapped
round-tripper; wrap a transport error; return the nil interface for a
body-less response, else the dumped response. -/
def producer (next : CacheRequest → Except String CacheResponse) (req : CacheRequest) :
    Unit → Except CacheErr (Option CacheResponse) := fun _ =>
  match next req with
  | .error e => .error (.transport e)
  | .ok resp => if resp.body.isNone then .ok none else .ok (some resp)

/-- A plain pass-through of the wrapped round-tripper, used on the bypass
path (`m.Service == nil || !m.methodCacheable(req)`). -/
def liftNext (r : Except String CacheResponse) : CacheOutcome :=
  match r with
  | .error e => .err (.plain e)
  | .ok resp => .ok resp

/-- Translation of `Middleware.Middleware`'s round-trip function: bypass
without a service or for a non-cacheable method; derive the key (its body
side effect included); call the service with the producer; wrap a load
error; then perform the `cachedResp.([]byte)` type assertion — which, for
the nil interface stored for body-less responses, is a runtime panic —
and re-read the response from the entry. -/
def cacheRoundTrip (cfg : CacheCfg) (svcOpt : Option CacheSvc)
    (next : CacheRequest → Except String CacheResponse) (req : CacheRequest) : CacheOutcome :=
  match svcOpt with
  | none => liftNext (next req)
  | some svc =>
    if methodCacheable cfg req = false then liftNext (next req)
    else
      match extractCacheKey cfg req with
      | .error e => .err (.keyError e)
      | .ok kr =>
        match svc kr.1 (producer next kr.2) with
        | .error e => .err (.readError kr.1 e)
        | .ok none => .panicked "interface conversion: interface is nil, not []uint8"
        | .ok (some entry) => .ok entry

end CacheM

namespace NewCache

/-- Modelled from the spec: configuration of the status-filtering `Cache`
middleware of package `middleware` (constructed by `Cache` with the
`CacheMethods` and `CacheStatuses` options).  Its Go source is not part of
the source tree — only its tests are — so the store policy is taken from
the spec: allowed methods default to GET and cacheable status codes
default to exactly 200. -/
structure Cfg where
  methods : List String
  statuses : List Int
  deriving DecidableEq

/-- Modelled from the spec: the default configuration (methods GET,
cacheable statuses exactly 200). -/
def defaultCfg : Cfg := ⟨["GET"], [200]⟩

/-- The cache store: key to stored response. -/
def Store : Type := List (String × CacheM.CacheResponse)

/-- Modelled from the spec: one call through the status-filtering cache
middleware for a request with the given method and cache key.  Bypass for
a method outside the allow-list; on a hit serve the stored response; on a
miss invoke the wrapped invoker and store the response only when its
status code is in the cacheable set.  Returns the response, the new store,
and whether the wrapped invoker was invoked. -/
def oneCall (cfg : Cfg) (method key : String) (next : Unit → CacheM.CacheResponse)
    (store : Store) : CacheM.CacheResponse × Store × Bool :=
  if cfg.methods.contains method = false then (next (), store, true)
  else
    match List.lookup key store with
    | some r => (r, store, false)
    | none =>
      let r := next ()
      if cfg.statuses.contains r.statusCode then (r, (key, r) :: store, true)
      else (r, store, true)

/-- Modelled from the spec: `n` repeated identical calls through the
status-filtering cache middleware.  `upstream i` is the response the
wrapped invoker produces on its `i`-th invocation; `calls` counts the
invocations made so far.  Returns the final store and the total number of
upstream invocations. -/
def repeatCalls (cfg : Cfg) (method key : String) (upstream : Nat → CacheM.CacheResponse) :
    Nat → Store → Nat → Store × Nat
  | 0, store, calls => (store, calls)
  | n + 1, store, calls =>
    let step := oneCall cfg method key (fun _ => upstream calls) store
    repeatCalls cfg method key upstream n step.2.1 (calls + (if step.2.2 then 1 else 0))

end NewCache

namespace Gate

/-- Modelled from the spec: the state of the bounded-concurrency gate
(`MaxConcurrent`, whose Go source is not part of the source tree — only
its tests and README are).  Per spec §3 the gate state is a bounded
counting resource with no per-request identity, so a state is the number
of calls waiting for a slot, the number admitted (invoking the wrapped
invoker), and the number finished. -/
structure GState where
  waiting : Nat
  active : Nat
  finished : Nat
  deriving DecidableEq

/-- Modelled from the spec: the transitions of the gate with capacity `N`.
`acquire` admits a waiting call when a slot is free; `release` completes
an admitted call — uniformly for success, failure or cancellation of the
invocation, releasing the slot; `cancelWait` aborts a call whose
cancellation fires while it waits for a slot, without ever invoking the
wrapped invoker. -/
inductive Step (N : Nat) : GState → GState → Prop
  | acquire (s : GState) : 0 < s.waiting → s.active < N →
      Step N s ⟨s.waiting - 1, s.active + 1, s.finished⟩
  | release (s : GState) : 0 < s.active →
      Step N s ⟨s.waiting, s.active - 1, s.finished + 1⟩
  | cancelWait (s : GState) : 0 < s.waiting →
      Step N s ⟨s.waiting - 1, s.active, s.finished + 1⟩

/-- Reachability under the gate's transitions. -/
def Reach (N : Nat) : GState → GState → Prop := Relation.ReflTransGen (Step N)

/-- The initial state for `M` concurrent calls: all waiting. -/
def gateInit (M : Nat) : GState := ⟨M, 0, 0⟩

/-- Termination measure of the gate: steps strictly decrease it. -/
def measure (s : GState) : Nat := 2 * s.waiting + s.active

end Gate

namespace Chain

/-- A round tripper as `Requester.Do` and `Requester.Client` assemble it:
the default transport (`http.DefaultTransport`), a custom transport the
caller stored in the supplied `http.Client`, or a decorator (one
`RoundTripperHandler`'s wrapping, identified by a label) around an inner
round tripper. -/
inductive SimpleTransport where
  | base
  | custom (id : Nat)
  | mw (id : Nat) (inner : SimpleTransport)
  deriving DecidableEq

/-- Execution of a transport on a request, abstracted to the trace of
decorator labels in the order they see the request on the way in (each
decorator appends its label and delegates inward, the pattern of every
middleware in the repository and its tests). -/
def SimpleTransport.run : SimpleTransport → List Nat → List Nat
  | .base, trace => trace
  | .custom _, trace => trace
  | .mw i inner, trace => inner.run (trace ++ [i])

/-- Whether a transport chain ever delegates to a caller-supplied custom
transport. -/
def mentionsCustom : SimpleTransport → Bool
  | .base => false
  | .custom _ => true
  | .mw _ inner => mentionsCustom inner

/-- Translation of the composition loop shared by `Requester.Do` and
`Requester.Client` (`for _, handler := range r.middlewares { transport =
handler(transport) }`), folding the ordered middleware list over a start
transport. -/
def chainFrom (t : SimpleTransport) (mws : List Nat) : SimpleTransport :=
  mws.foldl (fun acc i => .mw i acc) t

/-- The transport chain the composition loop builds over
`http.DefaultTransport`. -/
def buildChain (mws : List Nat) : SimpleTransport := chainFrom .base mws

/-- A `Requester` as far as transport assembly is concerned: the stored
client's transport and the attached middleware list (in attachment order,
as produced by `New`, `Use` and `With`). -/
structure Requester where
  clientTransport : SimpleTransport
  middlewares : List Nat

/-- Translation of the transport assembly of `Requester.Do` (and
`Requester.Client`): the source first executes
`r.client.Transport = http.DefaultTransport` and then folds the
middleware list over that field, so the chain is built over the default
transport whatever the stored client's transport was. -/
def Requester.doTransport (r : Requester) : SimpleTransport :=
  buildChain r.middlewares

end Chain

namespace Inputs

/-- Retry configuration with two attempts and the default status policy,
used for the mixed transport-error / retryable-status run. -/
def cfgMixed : RetryM.RetryConfig :=
  ⟨2, 100000000, 30000000000, .exponential, 0, [], [], false, 10485760⟩

/-- A bodyless request (`GET` with `http.NoBody`). -/
def reqNoBody : RetryM.RetryRequest := ⟨false, false, [], false⟩

/-- An environment whose first invocation fails at transport level and
whose second returns a retryable 503 response; never cancelled. -/
def envMixed : RetryM.RetryEnv :=
  ⟨fun i => if i = 0 then .failure none "boom" else .success ⟨503⟩,
   fun _ => false, fun _ => false, fun _ => false⟩

/-- An environment whose every invocation returns a retryable 503
response; never cancelled. -/
def envAll503 : RetryM.RetryEnv :=
  ⟨fun _ => .success ⟨503⟩, fun _ => false, fun _ => false, fun _ => false⟩

/-- Retry configuration with a single attempt, body buffering enabled and
a 512-byte buffer cap. -/
def cfgBufOne : RetryM.RetryConfig :=
  ⟨1, 1000000, 30000000000, .exponential, 0, [], [], true, 512⟩

/-- A request with a 513-byte body and no rewind capability. -/
def reqBody513 : RetryM.RetryRequest := ⟨true, false, List.replicate 513 120, false⟩

/-- Retry configuration with three attempts, body buffering enabled and a
4-byte buffer cap. -/
def cfgBufSmall : RetryM.RetryConfig :=
  ⟨3, 1000000, 30000000000, .constant, 0, [], [], true, 4⟩

/-- A request with a 6-byte body and no rewind capability. -/
def reqBody6 : RetryM.RetryRequest := ⟨true, false, [1, 2, 3, 4, 5, 6], false⟩

/-- Retry configuration with three attempts and body buffering disabled
(the default). -/
def cfgNoBuf : RetryM.RetryConfig :=
  ⟨3, 1000000, 30000000000, .exponential, 0, [], [], false, 10485760⟩

/-- Retry configuration with five attempts, exponential backoff, a 10 ns
initial delay, a 15 ns delay cap and zero jitter. -/
def cfgExp : RetryM.RetryConfig := ⟨5, 10, 15, .exponential, 0, [], [], false, 10485760⟩

/-- Cache middleware configured with `KeyWithBody` and no custom key
function. -/
def cfgKeyBody : CacheM.CacheCfg := ⟨["GET"], true, false, [], [], none⟩

/-- A GET request whose body is one byte longer than the 16 KiB body-key
cap. -/
def reqBigBody : CacheM.CacheRequest :=
  ⟨"GET", "http://example.com/1", [], some (List.replicate 16385 65), false⟩

/-- Default cache middleware configuration (GET only, no key options). -/
def cfgGetOnly : CacheM.CacheCfg := ⟨["GET"], false, false, [], [], none⟩

/-- A loading-cache service that always invokes the producer (the
pass-through mock of the repository's tests). -/
def passSvc : CacheM.CacheSvc := fun _ f => f ()

/-- A wrapped round-tripper that succeeds with a 200 response carrying an
absent (`nil`) body. -/
def nextNilBody : CacheM.CacheRequest → Except String CacheM.CacheResponse :=
  fun _ => .ok ⟨200, [], none⟩

/-- A plain bodyless GET request for the cache middleware. -/
def reqGet : CacheM.CacheRequest := ⟨"GET", "http://example.com/x", [], none, false⟩

/-- An upstream for the status-filtering cache that always answers 503
with a non-empty body. -/
def upstream503 : Nat → CacheM.CacheResponse := fun _ => ⟨503, [], some [1]⟩

end Inputs

/-- Two's-complement wrap is the identity on the int64 range. -/
theorem wrap64_eq_of_bounds (x : Int) (h1 : -(2 ^ 63) ≤ x) (h2 : x < 2 ^ 63) :
    RetryM.wrap64 x = x := by
  unfold RetryM.wrap64
  have h3 : (0 : Int) ≤ x + 2 ^ 63 := by linarith
  have h4 : x + 2 ^ 63 < 2 ^ 64 := by norm_num; linarith
  rw [Int.emod_eq_of_lt h3 h4]
  ring

/-- The source's clamp (`if delay > maxDelay { delay = maxDelay }`) is the
minimum. -/
theorem clamp_eq_min (d m : Int) : (if m < d then m else d) = min d m := by
  rcases le_or_lt d m with h | h
  · rw [if_neg (not_lt.mpr h), min_eq_left h]
  · rw [if_pos h, min_eq_right h.le]

/-- Claim C6: with jitter factor 0 and attempt index k ≥ 1, the computed
inter-attempt delay is the initial delay for constant backoff, the initial
delay times k for linear backoff, and the initial delay times 2^(k-1) for
exponential backoff, in each case clamped to the configured maximum delay.
The overflow-freedom bound keeps the translation of the float64 `math.Pow`
path exact. -/
theorem calcDelay_shapes_clamped (cfg : RetryM.RetryConfig) (k : Nat) (rnd : ℚ)
    (hj : cfg.jitterFactor = 0) (hk : 1 ≤ k) (hd : 0 ≤ cfg.initialDelay)
    (hbound : cfg.initialDelay * 2 ^ (k - 1) < 2 ^ 63) :
    (cfg.backoff = .constant →
      RetryM.calcDelay cfg k rnd = min cfg.initialDelay cfg.maxDelay) ∧
    (cfg.backoff = .linear →
      RetryM.calcDelay cfg k rnd = min (cfg.initialDelay * (k : Int)) cfg.maxDelay) ∧
    (cfg.backoff = .exponential →
      RetryM.calcDelay cfg k rnd = min (cfg.initialDelay * 2 ^ (k - 1)) cfg.maxDelay) := by
  have hk0 : k ≠ 0 := by omega
  have hmulk : cfg.initialDelay * (k : Int) < 2 ^ 63 := by
    have hkle : (k : Int) ≤ 2 ^ (k - 1) := by
      have h2 : k ≤ 2 ^ (k - 1) := by
        have := Nat.lt_two_pow (k - 1)
        omega
      exact_mod_cast h2
    calc cfg.initialDelay * (k : Int) ≤ cfg.initialDelay * 2 ^ (k - 1) := by
          exact mul_le_mul_of_nonneg_left hkle hd
      _ < 2 ^ 63 := hbound
  have hknn : (0 : Int) ≤ (k : Int) := by positivity
  have hpnn : (0 : Int) ≤ (2 : Int) ^ (k - 1) := by positivity
  have hxnn : (0 : Int) ≤ cfg.initialDelay * (k : Int) := mul_nonneg hd hknn
  have hynn : (0 : Int) ≤ cfg.initialDelay * 2 ^ (k - 1) := mul_nonneg hd hpnn
  refine ⟨fun hb => ?_, fun hb => ?_, fun hb => ?_⟩ <;>
    rw [RetryM.calcDelay, if_neg hk0] <;>
    simp only [hb, hj] <;>
    rw [if_neg (lt_irrefl (0 : ℚ))]
  · exact clamp_eq_min _ _
  · rw [wrap64_eq_of_bounds _ (by linarith) hmulk]
    exact clamp_eq_min _ _
  · rw [wrap64_eq_of_bounds _ (by linarith) hbound]
    exact clamp_eq_min _ _

/-- Witness for `calcDelay_shapes_clamped`: the exponential configuration
`cfgExp` at attempt 3 satisfies the hypotheses, and the third retry delay
is 10 × 2² = 40 ns clamped to the 15 ns cap. -/
theorem calcDelay_shapes_clamped_witness :
    Inputs.cfgExp.jitterFactor = 0 ∧ 1 ≤ 3 ∧ 0 ≤ Inputs.cfgExp.initialDelay ∧
    Inputs.cfgExp.initialDelay * 2 ^ (3 - 1) < 2 ^ 63 ∧
    (Inputs.cfgExp.backoff = .exponential →
      RetryM.calcDelay Inputs.cfgExp 3 0 =
        min (Inputs.cfgExp.initialDelay * 2 ^ (3 - 1)) Inputs.cfgExp.maxDelay) :=
  ⟨rfl, by decide, by decide, by decide,
    (calcDelay_shapes_clamped Inputs.cfgExp 3 0 rfl (by decide) (by decide) (by decide)).2.2⟩

/-- Folding middleware over a start transport wraps the start, so running
the folded chain appends the reversed middleware list to the trace before
the start transport runs. -/
theorem chainFrom_run (t : Chain.SimpleTransport) (mws : List Nat) (trace : List Nat) :
    (Chain.chainFrom t mws).run trace = t.run (trace ++ mws.reverse) := by
  induction mws generalizing t trace with
  | nil => simp [Chain.chainFrom]
  | cons i rest ih =>
    show (Chain.chainFrom (.mw i t) rest).run trace = _
    rw [ih]
    simp [Chain.SimpleTransport.run, List.append_assoc]

/-- Claim C2, counterexample: composing the two middlewares listed in
order [1, 2] and running the chain executes middleware 2 first — the
first-listed middleware is not outermost and execution order is not
attachment order. -/
theorem compose_first_listed_not_outermost_cex :
    (Chain.buildChain [1, 2]).run [] = [2, 1] ∧ ([2, 1] : List Nat) ≠ [1, 2] := by decide

/-- Claim C2, amended: the composition fold of `Requester.Do` / `Client`
applies the ordered middleware list outermost-last, so within one call the
middlewares execute in the reverse of attachment order (the last-listed
middleware sees the request first). -/
theorem compose_exec_order_is_reverse (mws trace : List Nat) :
    (Chain.buildChain mws).run trace = trace ++ mws.reverse := by
  rw [Chain.buildChain, chainFrom_run]
  rfl

/-- A chain folded from middleware wrappings mentions a custom transport
exactly when its start does. -/
theorem mentionsCustom_chainFrom (t : Chain.SimpleTransport) (mws : List Nat) :
    Chain.mentionsCustom (Chain.chainFrom t mws) = Chain.mentionsCustom t := by
  induction mws generalizing t with
  | nil => rfl
  | cons i rest ih =>
    show Chain.mentionsCustom (Chain.chainFrom (.mw i t) rest) = _
    rw [ih]
    rfl

/-- Claim C10: `Requester.Do` (and `Requester.Client`) build the effective
transport chain over `http.DefaultTransport`, so the result is the same
whatever transport the stored client carried, and the chain never
delegates to a caller-supplied custom transport. -/
theorem do_ignores_client_transport (r : Chain.Requester) :
    r.doTransport = Chain.buildChain r.middlewares ∧
    Chain.mentionsCustom r.doTransport = false ∧
    (∀ t : Chain.SimpleTransport,
      (Chain.Requester.mk t r.middlewares).doTransport = r.doTransport) := by
  refine ⟨rfl, ?_, fun t => rfl⟩
  rw [Chain.Requester.doTransport, Chain.buildChain, mentionsCustom_chainFrom]
  rfl

/-- Claim C1, counterexample: with a two-attempt budget, a first attempt
failing at transport level and a second (last) attempt returning a
retryable 503 response, `RoundTrip` does not return the last response with
a nil error — the recorded transport error of the earlier attempt is never
cleared, so a retry-exhausted error is returned alongside the 503
response. -/
theorem retry_last_error_sticky_cex :
    RetryM.replyFails (Inputs.envMixed.next 1) = false ∧
    (RetryM.retryRoundTrip Inputs.cfgMixed Inputs.reqNoBody Inputs.envMixed).resp =
      some ⟨503⟩ ∧
    (RetryM.retryRoundTrip Inputs.cfgMixed Inputs.reqNoBody Inputs.envMixed).err =
      some (.transportExhausted 2 "boom") := by decide

/-- Invariant of the attempt loop: with no cancellation, no `GetBody`
failure and every reply retryable (transport failure or retryable status),
the loop performs exactly `remaining` further invocations, and its final
error is nil exactly when no transport error was recorded before and no
remaining reply is a transport failure. -/
theorem retryLoop_all_retryable (cfg : RetryM.RetryConfig) (env : RetryM.RetryEnv)
    (gb gbFallible : Bool) (total : Nat)
    (hctx : ∀ i, env.ctxErrAt i = false)
    (hdel : ∀ i, env.cancelDuringDelay i = false)
    (hgb : ∀ i, env.getBodyFails i = false) :
    ∀ remaining invocs lastResp lastErr,
      (∀ j, j < remaining → RetryM.replyRetryable cfg (env.next (invocs + j)) = true) →
      (RetryM.retryLoop cfg env gb gbFallible total remaining lastResp lastErr
          invocs).invocations = invocs + remaining ∧
      ((RetryM.retryLoop cfg env gb gbFallible total remaining lastResp lastErr
          invocs).err = none ↔
        (lastErr = none ∧
          ∀ j, j < remaining → RetryM.replyFails (env.next (invocs + j)) = false)) := by
  intro remaining
  induction remaining with
  | zero =>
    intro invocs lastResp lastErr _
    cases lastErr <;> simp [RetryM.retryLoop]
  | succ m ih =>
    intro invocs lastResp lastErr hret
    have h0 : RetryM.replyRetryable cfg (env.next invocs) = true := by
      simpa using hret 0 (Nat.succ_pos m)
    have hshift : ∀ j, j < m → RetryM.replyRetryable cfg (env.next (invocs + 1 + j)) = true := by
      intro j hj
      have := hret (j + 1) (by omega)
      simpa [Nat.add_assoc, Nat.add_comm 1 j] using this
    rw [RetryM.retryLoop]
    simp only [hctx, hdel, hgb, and_false, Bool.false_eq_true, if_false, false_and, and_false]
    cases hnext : env.next invocs with
    | failure respOpt e =>
      have ihh := ih (invocs + 1) respOpt (some e) hshift
      refine ⟨by rw [ihh.1]; omega, ?_⟩
      rw [ihh.2]
      constructor
      · rintro ⟨h, -⟩
        exact absurd h (by simp)
      · rintro ⟨-, hall⟩
        have := hall 0 (Nat.succ_pos m)
        rw [Nat.add_zero, hnext] at this
        exact absurd this (by simp [RetryM.replyFails])
    | success resp =>
      have hsr : RetryM.shouldRetry cfg resp = true := by
        have := h0
        rw [hnext] at this
        simpa [RetryM.replyRetryable] using this
      dsimp only
      rw [if_pos hsr]
      have ihh := ih (invocs + 1) (some resp) lastErr hshift
      refine ⟨by rw [ihh.1]; omega, ?_⟩
      rw [ihh.2]
      constructor
      · rintro ⟨h, hall⟩
        refine ⟨h, fun j hj => ?_⟩
        cases j with
        | zero => simp [hnext, RetryM.replyFails]
        | succ j =>
          have := hall j (by omega)
          simpa [Nat.add_assoc, Nat.add_comm 1 j] using this
      · rintro ⟨h, hall⟩
        refine ⟨h, fun j hj => ?_⟩
        have := hall (j + 1) (by omega)
        simpa [Nat.add_assoc, Nat.add_comm 1 j] using this

/-- Claim C1, amended: for a bodyless request with attempt budget A ≥ 1,
no cancellation, and every reply retryable (so the budget is exhausted),
`RoundTrip` invokes the wrapped round-tripper exactly A times and returns
a nil error if and only if no attempt at all ended in a transport-level
error: the recorded transport error is sticky, so a retry-exhausted error
is returned whenever any attempt failed at transport level, not only when
the last one did. -/
theorem retry_exhausted_error_iff_any_transport_error (cfg : RetryM.RetryConfig)
    (req : RetryM.RetryRequest) (env : RetryM.RetryEnv)
    (hb : req.hasBody = false) (hA : 1 ≤ cfg.attempts)
    (hctx : ∀ i, env.ctxErrAt i = false)
    (hdel : ∀ i, env.cancelDuringDelay i = false)
    (hgb : ∀ i, env.getBodyFails i = false)
    (hret : ∀ i, i < cfg.attempts.toNat → RetryM.replyRetryable cfg (env.next i) = true) :
    (RetryM.retryRoundTrip cfg req env).invocations = cfg.attempts.toNat ∧
    ((RetryM.retryRoundTrip cfg req env).err = none ↔
      ∀ i, i < cfg.attempts.toNat → RetryM.replyFails (env.next i) = false) := by
  have hone : 1 ≤ cfg.attempts.toNat := by omega
  have hsetup : RetryM.effectiveSetup cfg req = .ok ⟨cfg.attempts, req.getBody, true⟩ := by
    rw [RetryM.effectiveSetup, if_neg]
    simp [hb]
  have hloop := retryLoop_all_retryable cfg env req.getBody true cfg.attempts.toNat
    hctx hdel hgb cfg.attempts.toNat 0 none none (by simpa using hret)
  rw [RetryM.retryRoundTrip, hsetup]
  simpa using hloop

/-- Witness for `retry_exhausted_error_iff_any_transport_error`: two
attempts against an environment that always answers 503 exhaust the
budget with two invocations and a nil error. -/
theorem retry_exhausted_error_iff_any_transport_error_witness :
    Inputs.reqNoBody.hasBody = false ∧ 1 ≤ Inputs.cfgMixed.attempts ∧
    (RetryM.retryRoundTrip Inputs.cfgMixed Inputs.reqNoBody Inputs.envAll503).invocations =
      Inputs.cfgMixed.attempts.toNat ∧
    ((RetryM.retryRoundTrip Inputs.cfgMixed Inputs.reqNoBody Inputs.envAll503).err = none ↔
      ∀ i, i < Inputs.cfgMixed.attempts.toNat →
        RetryM.replyFails (Inputs.envAll503.next i) = false) :=
  ⟨rfl, by decide,
    (retry_exhausted_error_iff_any_transport_error Inputs.cfgMixed Inputs.reqNoBody
      Inputs.envAll503 rfl (by decide) (fun _ => rfl) (fun _ => rfl) (fun _ => rfl)
      (by decide)).1,
    (retry_exhausted_error_iff_any_transport_error Inputs.cfgMixed Inputs.reqNoBody
      Inputs.envAll503 rfl (by decide) (fun _ => rfl) (fun _ => rfl) (fun _ => rfl)
      (by decide)).2⟩

/-- Claim C4, counterexample: with body buffering enabled but an attempt
budget of one, a request whose 513-byte body exceeds the 512-byte cap is
not rejected — the buffering path is only entered when more than one
attempt is configured, so the wrapped round-tripper is invoked once and no
body-too-large error is returned. -/
theorem retry_buffer_single_attempt_cex :
    (RetryM.retryRoundTrip Inputs.cfgBufOne Inputs.reqBody513 Inputs.envAll503).invocations
      = 1 ∧
    (RetryM.retryRoundTrip Inputs.cfgBufOne Inputs.reqBody513 Inputs.envAll503).err
      = none := by decide

/-- Claim C4, amended: with body buffering enabled and an attempt budget
of at least two, a request with no rewind capability whose body exceeds
the configured maximum buffer size makes zero invocations of the wrapped
round-tripper and returns a body-too-large error; the error text contains
the number of bytes read (the limit plus one — the read is capped there,
so it equals the body's size exactly when the body is at most one byte
over the limit) and the configured limit. -/
theorem retry_body_too_large_fails_fast (cfg : RetryM.RetryConfig)
    (req : RetryM.RetryRequest) (env : RetryM.RetryEnv)
    (hbuf : cfg.bufferBodies = true) (hatt : 1 < cfg.attempts)
    (hb : req.hasBody = true) (hgb : req.getBody = false) (hre : req.bodyReadErr = false)
    (hmax : 0 ≤ cfg.maxBufferSize) (hlen : cfg.maxBufferSize < (req.body.length : Int)) :
    RetryM.retryRoundTrip cfg req env =
      ⟨none, some (.bodyTooLarge (cfg.maxBufferSize.toNat + 1) cfg.maxBufferSize), 0⟩ ∧
    ∃ pre mid post : String,
      RetryM.RErr.text (.bodyTooLarge (cfg.maxBufferSize.toNat + 1) cfg.maxBufferSize) =
        pre ++ toString (cfg.maxBufferSize.toNat + 1) ++ mid ++
          toString cfg.maxBufferSize ++ post := by
  have htake : (cfg.maxBufferSize + 1).toNat = cfg.maxBufferSize.toNat + 1 := by omega
  have hlen2 : cfg.maxBufferSize.toNat + 1 ≤ req.body.length := by omega
  have hbytes : (req.body.take (cfg.maxBufferSize + 1).toNat).length
      = cfg.maxBufferSize.toNat + 1 := by
    rw [List.length_take, htake]
    omega
  have hcond : cfg.maxBufferSize <
      ((req.body.take (cfg.maxBufferSize + 1).toNat).length : Int) := by
    rw [hbytes]
    omega
  have hsetup : RetryM.effectiveSetup cfg req =
      .error (.bodyTooLarge (cfg.maxBufferSize.toNat + 1) cfg.maxBufferSize) := by
    rw [RetryM.effectiveSetup, if_pos ⟨hb, hgb, hatt⟩]
    rw [hbuf, if_pos rfl, hre]
    simp only [Bool.false_eq_true, if_false]
    rw [if_pos hcond, hbytes]
  constructor
  · rw [RetryM.retryRoundTrip, hsetup]
  · exact ⟨"retry: request body too large (", " bytes exceeds ",
      " byte limit) - cannot retry", rfl⟩

/-- Witness for `retry_body_too_large_fails_fast`: three attempts, a
4-byte cap and a 6-byte body give zero invocations and the body-too-large
error reporting 5 read bytes against the 4-byte limit. -/
theorem retry_body_too_large_fails_fast_witness :
    Inputs.cfgBufSmall.bufferBodies = true ∧ 1 < Inputs.cfgBufSmall.attempts ∧
    RetryM.retryRoundTrip Inputs.cfgBufSmall Inputs.reqBody6 Inputs.envAll503 =
      ⟨none, some (.bodyTooLarge (Inputs.cfgBufSmall.maxBufferSize.toNat + 1)
        Inputs.cfgBufSmall.maxBufferSize), 0⟩ :=
  ⟨rfl, by decide,
    (retry_body_too_large_fails_fast Inputs.cfgBufSmall Inputs.reqBody6 Inputs.envAll503
      rfl (by decide) rfl rfl rfl (by decide) (by decide)).1⟩

/-- Claim C5: with body buffering disabled (the default), a request that
has a body but no rewind capability is attempted exactly once, whatever
the configured attempt budget and however retryable the outcome, provided
the request's context is alive when the call starts. -/
theorem retry_unrewindable_body_single_attempt (cfg : RetryM.RetryConfig)
    (req : RetryM.RetryRequest) (env : RetryM.RetryEnv)
    (hbuf : cfg.bufferBodies = false) (hb : req.hasBody = true) (hgb : req.getBody = false)
    (hA : 1 ≤ cfg.attempts) (hctx : env.ctxErrAt 0 = false) :
    (RetryM.retryRoundTrip cfg req env).invocations = 1 := by
  have key : ∀ gb cf lr le,
      (RetryM.retryLoop cfg env gb cf 1 1 lr le 0).invocations = 1 := by
    intro gb cf lr le
    rw [RetryM.retryLoop]
    have hz : (1 : Nat) - (0 + 1) = 0 := rfl
    simp only [hz, hctx, Bool.false_eq_true, if_false, lt_irrefl, false_and]
    cases env.next 0 with
    | failure respOpt e => cases e <;> simp [RetryM.retryLoop]
    | success resp =>
      dsimp only
      by_cases hsr : RetryM.shouldRetry cfg resp = true
      · rw [if_pos hsr]
        cases le <;> simp [RetryM.retryLoop]
      · rw [if_neg hsr]
  rcases lt_or_le 1 cfg.attempts with h | h
  · have hsetup : RetryM.effectiveSetup cfg req = .ok ⟨1, false, false⟩ := by
      rw [RetryM.effectiveSetup, if_pos ⟨hb, hgb, h⟩, hbuf]
      simp
    rw [RetryM.retryRoundTrip, hsetup]
    exact key false false none none
  · have hA1 : cfg.attempts = 1 := le_antisymm h hA
    have hsetup : RetryM.effectiveSetup cfg req = .ok ⟨cfg.attempts, req.getBody, true⟩ := by
      rw [RetryM.effectiveSetup, if_neg]
      rintro ⟨-, -, hlt⟩
      omega
    rw [RetryM.retryRoundTrip, hsetup]
    have : cfg.attempts.toNat = 1 := by omega
    simp only [this]
    exact key req.getBody true none none

/-- Witness for `retry_unrewindable_body_single_attempt`: the three-attempt
no-buffering configuration with an unrewindable body and an always-503
environment invokes the wrapped round-tripper exactly once. -/
theorem retry_unrewindable_body_single_attempt_witness :
    Inputs.cfgNoBuf.bufferBodies = false ∧ 1 ≤ Inputs.cfgNoBuf.attempts ∧
    (RetryM.retryRoundTrip Inputs.cfgNoBuf Inputs.reqBody6 Inputs.envAll503).invocations
      = 1 :=
  ⟨rfl, by decide,
    retry_unrewindable_body_single_attempt Inputs.cfgNoBuf Inputs.reqBody6 Inputs.envAll503
      rfl rfl rfl (by decide) rfl⟩

/-- Claim C3 evaluated at a failing input: with `KeyWithBody` enabled, no
custom key function and a body one byte over the 16 KiB cap, key
extraction leaves the wrapped invoker a body of exactly the first 16384
bytes — not the original 16385-byte body.  The source reads the body
through `io.LimitReader(req.Body, maxBodySize)`, closes the original body
and replaces it by a reader over only the bytes read, so everything past
the cap is lost downstream. -/
theorem cache_key_truncates_large_body :
    (CacheM.extractCacheKey Inputs.cfgKeyBody Inputs.reqBigBody).map (fun kr => kr.2.body)
      = .ok (some (List.replicate 16384 (65 : Nat))) ∧
    some (List.replicate 16384 (65 : Nat)) ≠ Inputs.reqBigBody.body := by
  constructor
  · simp only [CacheM.extractCacheKey, CacheM.bodyKeyStep, CacheM.maxBodySize,
      Inputs.cfgKeyBody, Inputs.reqBigBody]
    norm_num [List.take_replicate]
    rfl
  · simp only [Inputs.reqBigBody, ne_eq, Option.some.injEq]
    intro h
    have hlen := congrArg List.length h
    simp only [List.length_replicate] at hlen
    omega

/-- Claim C7 evaluated at a failing input: a cacheable GET request through
the cache middleware with a pass-through service, whose upstream
invocation succeeds with a 200 response carrying an absent body, ends in a
runtime panic — the producer returns the nil interface for the body-less
response and the source then performs the unchecked type assertion
`cachedResp.([]byte)` on it, instead of returning the original response
with no error. -/
theorem cache_nil_body_response_panics :
    CacheM.cacheRoundTrip Inputs.cfgGetOnly (some Inputs.passSvc) Inputs.nextNilBody
      Inputs.reqGet =
      .panicked "interface conversion: interface is nil, not []uint8" := by decide

/-- Repeated identical calls through the status-filtering cache, starting
from a store without the key, store nothing and hit upstream once per call
when every upstream status is outside the cacheable set. -/
theorem repeatCalls_uncacheable (cfg : NewCache.Cfg) (method key : String)
    (upstream : Nat → CacheM.CacheResponse)
    (hm : cfg.methods.contains method = true)
    (hstat : ∀ i, cfg.statuses.contains (upstream i).statusCode = false) :
    ∀ (n : Nat) (store : NewCache.Store) (calls : Nat),
      List.lookup key store = none →
      NewCache.repeatCalls cfg method key upstream n store calls = (store, calls + n) := by
  intro n
  induction n with
  | zero =>
    intro store calls _
    simp [NewCache.repeatCalls]
  | succ m ih =>
    intro store calls h
    rw [NewCache.repeatCalls]
    have hone : NewCache.oneCall cfg method key (fun _ => upstream calls) store
        = (upstream calls, store, true) := by
      have hm2 : method ∈ cfg.methods := by simpa using hm
      have hs2 : (upstream calls).statusCode ∉ cfg.statuses := by simpa using hstat calls
      simp [NewCache.oneCall, hm2, h, hs2]
    simp only [hone, if_true]
    rw [ih store (calls + 1) h]
    congr 1
    omega

/-- Claim C8: for a cacheable request whose upstream response status is
never in the cacheable status set, nothing is ever stored (the store is
unchanged after any number of identical calls) and each of the `n`
repeated identical calls invokes the wrapped invoker again. -/
theorem cache_uncacheable_status_never_stored (cfg : NewCache.Cfg) (method key : String)
    (upstream : Nat → CacheM.CacheResponse) (n : Nat) (store : NewCache.Store)
    (hm : cfg.methods.contains method = true)
    (hmiss : List.lookup key store = none)
    (hstat : ∀ i, cfg.statuses.contains (upstream i).statusCode = false) :
    NewCache.repeatCalls cfg method key upstream n store 0 = (store, n) := by
  simpa using repeatCalls_uncacheable cfg method key upstream hm hstat n store 0 hmiss

/-- Witness for `cache_uncacheable_status_never_stored`: three identical
GET calls whose upstream always answers 503, against the default
configuration (cacheable statuses exactly 200), leave the empty store
empty and hit upstream three times. -/
theorem cache_uncacheable_status_never_stored_witness :
    NewCache.defaultCfg.methods.contains "GET" = true ∧
    List.lookup "k" ([] : NewCache.Store) = none ∧
    NewCache.repeatCalls NewCache.defaultCfg "GET" "k" Inputs.upstream503 3 [] 0
      = ([], 3) :=
  ⟨by decide, rfl,
    cache_uncacheable_status_never_stored NewCache.defaultCfg "GET" "k" Inputs.upstream503
      3 [] (by decide) rfl (fun _ => rfl)⟩

/-- Claim C9: for capacity N ≥ 1 and M calls, every state the gate can
reach from the all-waiting initial state has at most N active invocations
and conserves the M calls; moreover whenever some call is still waiting or
active a transition is enabled, and every transition strictly decreases
the termination measure — so no run gets stuck or runs forever before all
M calls have completed, with the slot released on every completion path
(success, failure or cancellation) by construction of the transitions. -/
theorem gate_bounded_and_completes (N M : Nat) (hN : 1 ≤ N) (s : Gate.GState)
    (h : Gate.Reach N (Gate.gateInit M) s) :
    s.active ≤ N ∧ s.waiting + s.active + s.finished = M ∧
    (0 < s.waiting + s.active → ∃ t, Gate.Step N s t) ∧
    (∀ t, Gate.Step N s t → Gate.measure t < Gate.measure s) := by
  have inv : s.active ≤ N ∧ s.waiting + s.active + s.finished = M := by
    induction h with
    | refl => simp [Gate.gateInit]
    | tail hreach hstep ih =>
      obtain ⟨ih1, ih2⟩ := ih
      cases hstep with
      | acquire hw ha =>
        refine ⟨?_, ?_⟩ <;> dsimp only <;> omega
      | release ha =>
        refine ⟨?_, ?_⟩ <;> dsimp only <;> omega
      | cancelWait hw =>
        refine ⟨?_, ?_⟩ <;> dsimp only <;> omega
  refine ⟨inv.1, inv.2, ?_, ?_⟩
  · intro hpos
    rcases Nat.eq_zero_or_pos s.active with hz | hp
    · have hw : 0 < s.waiting := by omega
      exact ⟨_, Gate.Step.acquire s hw (by omega)⟩
    · exact ⟨_, Gate.Step.release s hp⟩
  · intro t hstep
    cases hstep with
    | acquire hw ha => simp only [Gate.measure]; omega
    | release ha => simp only [Gate.measure]; omega
    | cancelWait hw => simp only [Gate.measure]; omega

/-- Witness for `gate_bounded_and_completes`: capacity 1, two calls, at
the initial state itself. -/
theorem gate_bounded_and_completes_witness :
    (1 : Nat) ≤ 1 ∧
    ((Gate.gateInit 2).active ≤ 1 ∧
      (Gate.gateInit 2).waiting + (Gate.gateInit 2).active + (Gate.gateInit 2).finished = 2 ∧
      (0 < (Gate.gateInit 2).waiting + (Gate.gateInit 2).active →
        ∃ t, Gate.Step 1 (Gate.gateInit 2) t) ∧
      (∀ t, Gate.Step 1 (Gate.gateInit 2) t →
        Gate.measure t < Gate.measure (Gate.gateInit 2))) :=
  ⟨by decide,
    gate_bounded_and_completes 1 2 (by decide) (Gate.gateInit 2) Relation.ReflTransGen.refl⟩
